import Mathlib

/-!
Verification development for the text-rewriting core of `whatsapp_clone.py`
(Towartz/wa-clone).

The program rewrites package-name tokens in `.smali` (structural-reference)
and `.xml` (declarative-markup) files with a fixed, ordered list of
`re.sub` substitutions.  Every compiled pattern in the source is one of:

  * a literal string in which each "captured" group matches exactly one
    fixed character that the replacement reproduces (e.g. `com(/)whatsapp`
    replaced by `com\1<path>`), which is equivalent to a plain literal
    replacement;
  * a literal followed by a negative lookahead (`com(/)whatsapp(?!/w4b)`);
  * a literal with one greedy optional literal group
    (`com\.whatsapp(\.w4b)?`);
  * `(<delim>)<pkg>(<delim>)(<module-alternation>)` where `<delim>` is `\.`
    or `\.|/` and the replacement is `\1<mid>\2\3`.

No pattern can match the empty string (for the file-name based patterns this
relies on the folder name being non-empty, which the program's own
`validate_config` enforces before processing).  Python's `re.sub` scans left
to right, replacing the leftmost match and resuming immediately after the
matched text; the scanner below implements exactly that policy.  Buffers are
modelled as `List Char`.
-/

namespace WaClone

/-- Text buffers: a file's content as a list of characters. -/
abbrev Buf := List Char

/-- Convenience conversion from string literals to buffers. -/
def str (s : String) : Buf := s.data

/-- Boolean substring test: `containsSeq pat l` is true iff `pat` occurs
contiguously inside `l` (models Python's `in` on strings / a successful
`re.search` for a literal pattern). -/
def containsSeq (pat : Buf) : Buf → Bool
  | [] => pat.isPrefixOf []
  | c :: rest => pat.isPrefixOf (c :: rest) || containsSeq pat rest

/-- `new_package_name.replace(".", "/")` (source line 469 / 571): the
package name with every dot turned into a slash.  `new_package_name_path`
is always derived this way, never set independently. -/
def toPath (p : Buf) : Buf := p.map (fun c => if c = '.' then '/' else c)

/-- The `OFFICIAL_MODULES` alternation (source lines 51–57), one entry per
alternative, in source order.  No entry is a prefix of another entry, so at
any text position at most one alternative can match and the regex
alternation is equivalent to `find?` over this list. -/
def OFFICIAL_MODULES : List Buf :=
  [str "aborthooks", str "adscreation", str "anr", str "audioRecording",
   str "breakpad", str "calling", str "fieldstats", str "filter",
   str "infra", str "jid", str "media", str "messagetranslation",
   str "nativelibloader", str "protocol", str "pytorch", str "stickers",
   str "superpack", str "unity", str "util", str "voipcalling",
   str "wamsys", str "executorch", str "gwpasan", str "voicetranscription",
   str "AppShell", str "GifHelper", str "Mp4Ops", str "NativeMediaHandler",
   str "SmbAppShell", str "SqliteShell", str "StickyHeadersRecyclerView",
   str "VideoFrameConverter", str "ohai", str "WaOhaiClient",
   str "productinfra", str "music", str "api", str "MusicApi"]

/-!
## The substitution engine

A matcher inspects the text at the current position and either fails or
returns the length of the matched text together with the replacement text
(the replacement may depend on the captured characters).  `scanAux` then
realises Python's `re.sub` scan: try to match at each position from the
left; on success emit the replacement and resume after the matched text,
otherwise copy one character and advance.  All matchers used here match at
least one character; the `k = 0` guard only exists to keep the scanner
total and is never taken by the matchers below (given non-empty patterns).
-/

/-- A compiled pattern together with its replacement policy. -/
abbrev Matcher := Buf → Option (Nat × Buf)

/-- Matcher for a plain literal pattern `pat` with constant replacement
`rep`. -/
def litM (pat rep : Buf) : Matcher := fun l =>
  if pat.isPrefixOf l then some (pat.length, rep) else none

/-- Matcher for a literal `pat` followed by a negative lookahead `(?!g)`:
matches `pat` only when the following text does not begin with `g`. -/
def litGuardM (pat g rep : Buf) : Matcher := fun l =>
  if pat.isPrefixOf l && !(g.isPrefixOf (l.drop pat.length)) then
    some (pat.length, rep)
  else none

/-- Matcher for a pattern with one greedy optional suffix group, such as
`com\.whatsapp(\.w4b)?`: the long form `p1` is tried first, then the short
form `p2`.  The replacement is the same constant in both cases. -/
def opt2M (p1 p2 rep : Buf) : Matcher := fun l =>
  if p1.isPrefixOf l then some (p1.length, rep)
  else if p2.isPrefixOf l then some (p2.length, rep)
  else none

/-- Leftmost alternative of the `OFFICIAL_MODULES` alternation matching at
the start of `l` (the alternatives are mutually prefix-free, so this is
exactly the regex alternation's behaviour). -/
def findMod (mods : List Buf) (l : Buf) : Option Buf :=
  mods.find? (fun m => m.isPrefixOf l)

/-- Is `c` one of the delimiter characters of the protected-module
patterns: `(\.)` when `flex` is false, `(\.|/)` when `flex` is true. -/
def isDelim (flex : Bool) (c : Char) : Bool :=
  if flex then c = '.' || c = '/' else c = '.'

/-- Matcher for the protected-module ("official") patterns
`(<delim>)<pkg>(<delim>)(<OFFICIAL_MODULES>)` with replacement
`\1<mid>\2\3` (source lines 261–266, 299–304, 339–341, 357–360).
`mid` is `whatsapp`, `whatsapp.w4b` or `whatsapp/w4b` depending on the
branch; the two captured delimiters and the matched module are reproduced
around it. -/
def officialM (flex : Bool) (pkg mid : Buf) : Matcher := fun l =>
  match l with
  | [] => none
  | d1 :: r1 =>
    if isDelim flex d1 && pkg.isPrefixOf r1 then
      match r1.drop pkg.length with
      | [] => none
      | d2 :: r2 =>
        if isDelim flex d2 then
          match findMod OFFICIAL_MODULES r2 with
          | some m => some (1 + pkg.length + 1 + m.length, d1 :: mid ++ d2 :: m)
          | none => none
        else none
    else none

/-- Fuelled scanner implementing the `re.sub` left-to-right global
replacement.  The fuel is structural so that the definition reduces inside
the kernel; `rewriteScan` supplies `l.length` fuel, which is always enough
because every step consumes at least one character of the text. -/
def scanAux (m : Matcher) : Nat → Buf → Buf
  | _, [] => []
  | 0, l => l
  | fuel + 1, c :: rest =>
    match m (c :: rest) with
    | some (k, rep) =>
      if k = 0 then c :: scanAux m fuel rest
      else rep ++ scanAux m fuel (rest.drop (k - 1))
    | none => c :: scanAux m fuel rest

/-- One global substitution pass: `pattern.sub(replacement, content)`. -/
def rewriteScan (m : Matcher) (l : Buf) : Buf := scanAux m l.length l

/-- Global substitution for a literal pattern (the common case). -/
def reSub (pat rep : Buf) (l : Buf) : Buf := rewriteScan (litM pat rep) l

/-!
## Job configuration

`WhatsAppCloneConfig` (source lines 138–147), restricted to the fields the
rewriting core reads.  `new_package_name_path` is derived by `toPath`
exactly as the source derives it (lines 469 and 571), and the
"WhatsApp Business" test `"Business" in self.config.current_folder_name`
(lines 257, 277, 299, 328, 357) is `isBusiness`.
-/

structure WhatsAppCloneConfig where
  current_folder_name : Buf
  new_package_name : Buf
  new_folder_name : Buf
  custom_search_pattern : Option Buf

namespace WhatsAppCloneConfig

/-- `self.config.new_package_name_path` (derived field, source line 469). -/
def new_package_name_path (cfg : WhatsAppCloneConfig) : Buf :=
  toPath cfg.new_package_name

/-- `"Business" in self.config.current_folder_name`. -/
def isBusiness (cfg : WhatsAppCloneConfig) : Bool :=
  containsSeq (str "Business") cfg.current_folder_name

end WhatsAppCloneConfig

/-- The name checks of `WhatsAppCloner.validate_config` (source lines
581–586): package name and folder name must be non-empty.  The root-folder
existence check on line 574 is filesystem I/O and outside the
text-rewriting model. -/
def validateNames (cfg : WhatsAppCloneConfig) : Bool :=
  !cfg.new_package_name.isEmpty && !cfg.new_folder_name.isEmpty

/-!
## SmaliProcessor (structural-reference files)

`SmaliProcessor.process_file` (source lines 271–316).  The main
substitutions (lines 277–296) followed by the protected-module
("official") substitutions (lines 298–304).

In each pattern a group such as `(/)` or `(\.)` matches exactly one fixed
character which the replacement's `\1` reproduces, so the pair is embedded
as a literal pattern with a constant replacement.  The custom-pattern
construction (lines 241–249) applies `re.escape` to the token and then
replaces every escaped dot: the slash pattern matches the token with all
dots turned into slashes, the dot pattern matches the token literally.
This embedding covers tokens made of word characters and dots (on which
`re.escape` only escapes the dots); for a token with no dot at all the
Python replacement `com\1...` would raise an invalid-group error, so
theorems about custom tokens assume the token contains a dot.
-/

/-- The package-name substitutions of `SmaliProcessor.process_file`
(source lines 277–296). -/
def smaliMain (cfg : WhatsAppCloneConfig) (content : Buf) : Buf :=
  if cfg.isBusiness then
    -- First pass: explicit w4b paths (lines 280–284).
    let c1 := reSub (str "com/whatsapp/w4b")
      (str "com/" ++ cfg.new_package_name_path) content
    let c2 := reSub (str "com.whatsapp.w4b")
      (str "com." ++ cfg.new_package_name) c1
    -- Second pass: core paths that are not w4b, with negative lookahead;
    -- the replacement `com\1whatsapp` reproduces the matched text
    -- (lines 286–292).
    let c3 := rewriteScan
      (litGuardM (str "com/whatsapp") (str "/w4b") (str "com/whatsapp")) c2
    rewriteScan
      (litGuardM (str "com.whatsapp") (str ".w4b") (str "com.whatsapp")) c3
  else
    match cfg.custom_search_pattern with
    | some t =>
      -- package_pattern1/2 built from the custom token (lines 241–249).
      let c1 := reSub (toPath t)
        (str "com/" ++ cfg.new_package_name_path) content
      reSub t (str "com." ++ cfg.new_package_name) c1
    | none =>
      -- Default patterns (lines 252–253), used on lines 295–296.
      let c1 := reSub (str "com/whatsapp")
        (str "com/" ++ cfg.new_package_name_path) content
      reSub (str "com.whatsapp") (str "com." ++ cfg.new_package_name) c1

/-- The protected-module substitutions of `SmaliProcessor.process_file`
(source lines 298–304), using `official_package_pattern` (dots only, the
package name) and `official_packageP_pattern` (dot-or-slash, the package
path) built on lines 261–266. -/
def smaliOfficial (cfg : WhatsAppCloneConfig) (content : Buf) : Buf :=
  if cfg.isBusiness then
    let c1 := rewriteScan
      (officialM false cfg.new_package_name (str "whatsapp.w4b")) content
    rewriteScan
      (officialM true cfg.new_package_name_path (str "whatsapp/w4b")) c1
  else
    let c1 := rewriteScan
      (officialM false cfg.new_package_name (str "whatsapp")) content
    rewriteScan
      (officialM true cfg.new_package_name_path (str "whatsapp")) c1

/-- The complete in-memory rewrite a single `.smali` buffer undergoes in
`SmaliProcessor.process_file` (source lines 271–304). -/
def smaliRewrite (cfg : WhatsAppCloneConfig) (content : Buf) : Buf :=
  smaliOfficial cfg (smaliMain cfg content)

/-!
## XmlProcessor (declarative-markup files)

`XmlProcessor.__init__` (lines 320–341) and `process_file`
(lines 346–360): package substitution, sticker-permission substitution,
folder-name substitution, then the protected-module substitution (dot
version only; `XmlProcessor` has no path variant).
-/

/-- `self.package_pattern.sub(f'com.{new_package_name}', content)`
(line 351); the pattern is chosen on lines 323–332. -/
def xmlPackageSub (cfg : WhatsAppCloneConfig) (content : Buf) : Buf :=
  match cfg.custom_search_pattern with
  | some t => reSub t (str "com." ++ cfg.new_package_name) content
  | none =>
    if cfg.isBusiness then
      rewriteScan (opt2M (str "com.whatsapp.w4b") (str "com.whatsapp")
        (str "com." ++ cfg.new_package_name)) content
    else
      reSub (str "com.whatsapp") (str "com." ++ cfg.new_package_name) content

/-- `self.sticker_pattern.sub(...)` (lines 352–354); the pattern is chosen
on lines 326–333. -/
def xmlStickerSub (cfg : WhatsAppCloneConfig) (content : Buf) : Buf :=
  let rep := str "android:name=\"com." ++ cfg.new_package_name
    ++ str ".sticker.READ\""
  match cfg.custom_search_pattern with
  | some t =>
    reSub (str "android:name=\"" ++ t ++ str ".sticker.READ\"") rep content
  | none =>
    if cfg.isBusiness then
      rewriteScan (opt2M (str "android:name=\"com.whatsapp.w4b.sticker.READ\"")
        (str "android:name=\"com.whatsapp.sticker.READ\"") rep) content
    else
      reSub (str "android:name=\"com.whatsapp.sticker.READ\"") rep content

/-- `self.folder_pattern.sub(new_folder_name, content)` (line 355); the
pattern is the escaped current folder name (line 336). -/
def xmlFolderSub (cfg : WhatsAppCloneConfig) (content : Buf) : Buf :=
  reSub cfg.current_folder_name cfg.new_folder_name content

/-- The protected-module substitution of `XmlProcessor.process_file`
(lines 357–360). -/
def xmlOfficialSub (cfg : WhatsAppCloneConfig) (content : Buf) : Buf :=
  if cfg.isBusiness then
    rewriteScan (officialM false cfg.new_package_name (str "whatsapp.w4b"))
      content
  else
    rewriteScan (officialM false cfg.new_package_name (str "whatsapp"))
      content

/-- The complete in-memory rewrite a single `.xml` buffer undergoes in
`XmlProcessor.process_file` (source lines 346–360). -/
def xmlRewrite (cfg : WhatsAppCloneConfig) (content : Buf) : Buf :=
  xmlOfficialSub cfg (xmlFolderSub cfg (xmlStickerSub cfg
    (xmlPackageSub cfg content)))

/-- The same pipeline with the sticker-permission substitution removed.
Comparison definition, following the spec's wording, for the claim that
the sticker rule is redundant; it is not a function of the source. -/
def xmlRewriteNoSticker (cfg : WhatsAppCloneConfig) (content : Buf) : Buf :=
  xmlOfficialSub cfg (xmlFolderSub cfg (xmlPackageSub cfg content))

/-!
## Per-file processing and aggregation

`FileProcessor.process_all_files` (source lines 188–227) maps
`process_file` over the file list through a thread pool (`executor.map`
yields exactly one boolean result per input file, in order) and returns
`(total_files, success_count)`.  `process_file` (lines 271–316) returns
`True` on success and catches every exception — a failed read or write
yields `False` for that file only, and the map continues with the next
file.  A file is modelled by the result its `open`/`read` would produce
(`none` = the read raises) and whether the write-back succeeds.
-/

structure FileState where
  readResult : Option Buf
  writeOk : Bool

/-- The outcome `process_file` produces for one file: the returned boolean
and, when the write happened, the content written back. -/
structure FileOutcome where
  success : Bool
  written : Option Buf

/-- `SmaliProcessor.process_file` on one file (source lines 271–316):
read (may fail), rewrite, write back (may fail); any failure is caught and
reported as `False`. -/
def smaliProcessFile (cfg : WhatsAppCloneConfig) (f : FileState) :
    FileOutcome :=
  match f.readResult with
  | none => ⟨false, none⟩
  | some content =>
    let out := smaliRewrite cfg content
    if f.writeOk then ⟨true, some out⟩ else ⟨false, none⟩

/-- The per-file boolean results, one per input file, in input order
(`executor.map(self.process_file, files)`, lines 212 / 219). -/
def smaliResults (cfg : WhatsAppCloneConfig) (files : List FileState) :
    List Bool :=
  files.map (fun f => (smaliProcessFile cfg f).success)

/-- `process_all_files` for the smali category (source lines 188–227):
`(total_files, success_count)`. -/
def processAllSmali (cfg : WhatsAppCloneConfig) (files : List FileState) :
    Nat × Nat :=
  (files.length, (smaliResults cfg files).count true)

end WaClone

namespace WaClone

/-!
## Job configurations used by the verification

Concrete `WhatsAppCloneConfig` values.  `cfgDefP`/`cfgDefB` are the
default Auto configurations produced by `setup_from_args` with mode 1
(source lines 439–448); the others are custom-mode configurations
(`--package`/`--name`/`--search-pattern`), all reachable through
`setup_from_args` modes 2 and 3.
-/

/-- Primary label, custom package `myapp`. -/
def cfgPrim : WhatsAppCloneConfig :=
  ⟨str "WhatsApp", str "myapp", str "MyApp", none⟩

/-- Primary label with the package name a parameter. -/
def cfgPrimOf (p : Buf) : WhatsAppCloneConfig :=
  ⟨str "WhatsApp", p, str "MyApp", none⟩

/-- Variant (Business) label, custom package `myapp`. -/
def cfgBiz : WhatsAppCloneConfig :=
  ⟨str "WhatsApp Business", str "myapp", str "WABiz", none⟩

/-- The default Auto configuration for WhatsApp (type 1, mode 1). -/
def cfgDefP : WhatsAppCloneConfig :=
  ⟨str "WhatsApp", str "whatsapp", str "WhatsApp", none⟩

/-- The default Auto configuration for WhatsApp Business (type 2, mode 1). -/
def cfgDefB : WhatsAppCloneConfig :=
  ⟨str "WhatsApp Business", str "whatsapp.w4b", str "WhatsApp Business", none⟩

/-- Variant label with package name `w4b`. -/
def cfgW4b : WhatsAppCloneConfig :=
  ⟨str "WhatsApp Business", str "w4b", str "WABiz", none⟩

/-- Primary label with an empty package name. -/
def cfgEmptyPkg : WhatsAppCloneConfig :=
  ⟨str "WhatsApp", [], str "MyApp", none⟩

/-- Primary label with package name `whats`. -/
def cfgWhats : WhatsAppCloneConfig :=
  ⟨str "WhatsApp", str "whats", str "MyApp", none⟩

/-- Primary label whose new folder name contains the current one. -/
def cfgFolder2 : WhatsAppCloneConfig :=
  ⟨str "WhatsApp", str "myapp", str "WhatsApp2", none⟩

/-- Primary label with a custom search token. -/
def cfgCustomS (t : Buf) : WhatsAppCloneConfig :=
  ⟨str "WhatsApp", str "myapp", str "MyApp", some t⟩

/-- Variant label together with a custom search token `org.foo`. -/
def cfgBizCustom : WhatsAppCloneConfig :=
  ⟨str "WhatsApp Business", str "myapp", str "WABiz", some (str "org.foo")⟩

/-- A file whose read and write both succeed. -/
def goodFile : FileState := ⟨some (str "x com.whatsapp y"), true⟩

/-- A file whose read raises (e.g. a permission failure). -/
def badFile : FileState := ⟨none, true⟩

/-!
## Lemmas about prefixes and substring occurrence
-/

theorem prefixOf_refl : ∀ (l : Buf), l.isPrefixOf l = true
  | [] => rfl
  | a :: as => by simp [List.isPrefixOf, prefixOf_refl as]

theorem prefixOf_take : ∀ (pat l : Buf), pat.isPrefixOf l = true →
    l.take pat.length = pat
  | [], _, _ => by simp
  | _ :: _, [], h => by simp [List.isPrefixOf] at h
  | a :: as, b :: bs, h => by
    simp only [List.isPrefixOf, Bool.and_eq_true, beq_iff_eq] at h
    simp [List.take_succ_cons, prefixOf_take as bs h.2, h.1]

theorem prefixOf_mem : ∀ (pat l : Buf) (c : Char), pat.isPrefixOf l = true →
    c ∈ pat → c ∈ l
  | [], _, _, _, hc => by simp at hc
  | _ :: _, [], _, h, _ => by simp [List.isPrefixOf] at h
  | a :: as, b :: bs, c, h, hc => by
    simp only [List.isPrefixOf, Bool.and_eq_true, beq_iff_eq] at h
    rcases List.mem_cons.mp hc with rfl | hmem
    · rw [h.1]; exact List.mem_cons_self _ _
    · exact List.mem_cons_of_mem _ (prefixOf_mem as bs c h.2 hmem)

theorem prefixOf_append_drop : ∀ (a b l : Buf),
    (a ++ b).isPrefixOf l = true → b.isPrefixOf (l.drop a.length) = true
  | [], _, _, h => by simpa using h
  | _ :: _, _, [], h => by simp [List.isPrefixOf] at h
  | x :: xs, b, y :: ys, h => by
    simp only [List.cons_append, List.isPrefixOf, Bool.and_eq_true] at h
    simpa using prefixOf_append_drop xs b ys h.2

theorem prefixOf_append_left : ∀ (p y l : Buf),
    (p ++ y).isPrefixOf l = true → p.isPrefixOf l = true
  | [], _, l, _ => by cases l <;> rfl
  | _ :: _, _, [], h => by simp [List.isPrefixOf] at h
  | a :: as, y, b :: bs, h => by
    simp only [List.cons_append, List.isPrefixOf, Bool.and_eq_true] at h ⊢
    exact ⟨h.1, prefixOf_append_left as y bs h.2⟩

theorem containsSeq_of_prefixOf {pat l : Buf} (h : pat.isPrefixOf l = true) :
    containsSeq pat l = true := by
  cases l with
  | nil => exact h
  | cons c rest => simp [containsSeq, h]

theorem containsSeq_drop {pat : Buf} : ∀ (n : Nat) (l : Buf),
    containsSeq pat (l.drop n) = true → containsSeq pat l = true
  | 0, l, h => by simpa using h
  | _ + 1, [], h => by simpa using h
  | n + 1, c :: rest, h => by
    rw [List.drop_succ_cons] at h
    simp [containsSeq, containsSeq_drop n rest h]

theorem containsSeq_mono {p : Buf} (x y : Buf) : ∀ (l : Buf),
    containsSeq (x ++ p ++ y) l = true → containsSeq p l = true
  | [], h => by
    cases hq : x ++ p ++ y with
    | nil =>
      have hp : p = [] := (List.append_eq_nil.mp (List.append_eq_nil.mp hq).1).2
      subst hp; rfl
    | cons a as => rw [hq] at h; simp [containsSeq, List.isPrefixOf] at h
  | c :: rest, h => by
    simp only [containsSeq, Bool.or_eq_true] at h
    rcases h with hpre | hrest
    · have h1 : (p ++ y).isPrefixOf ((c :: rest).drop x.length) = true :=
        prefixOf_append_drop x (p ++ y) _ (by simpa [List.append_assoc] using hpre)
      exact containsSeq_drop x.length _
        (containsSeq_of_prefixOf (prefixOf_append_left p y _ h1))
    · simp [containsSeq, containsSeq_mono x y rest hrest]

theorem containsSeq_of_char {pat : Buf} {c : Char} (hc : c ∈ pat) :
    ∀ (l : Buf), containsSeq pat l = true → c ∈ l
  | [], h => by
    cases pat with
    | nil => simp at hc
    | cons a as => simp [containsSeq, List.isPrefixOf] at h
  | d :: rest, h => by
    simp only [containsSeq, Bool.or_eq_true] at h
    rcases h with hpre | hrest
    · exact prefixOf_mem _ _ _ hpre hc
    · exact List.mem_cons_of_mem _ (containsSeq_of_char hc rest hrest)

theorem containsSeq_eq_false {pat l : Buf} {c : Char} (hc : c ∈ pat)
    (hl : c ∉ l) : containsSeq pat l = false := by
  cases h : containsSeq pat l with
  | false => rfl
  | true => exact absurd (containsSeq_of_char hc l h) hl

/-!
## Lemmas about the scanner
-/

theorem scanAux_nil (m : Matcher) (fuel : Nat) : scanAux m fuel [] = [] := by
  cases fuel <;> rfl

theorem scanAux_succ_cons (m : Matcher) (fuel : Nat) (c : Char) (rest : Buf) :
    scanAux m (fuel + 1) (c :: rest) =
      match m (c :: rest) with
      | some (k, rep) =>
        if k = 0 then c :: scanAux m fuel rest
        else rep ++ scanAux m fuel (rest.drop (k - 1))
      | none => c :: scanAux m fuel rest := rfl

/-- A matcher whose replacement always equals the matched text (every rule
of the default Auto configurations has this shape). -/
def IdMatcher (m : Matcher) : Prop :=
  ∀ l k rep, m l = some (k, rep) → rep = l.take k

/-- A matcher is `CharBound P` when, on all-`P` input, any replacement it
produces consists of `P` characters only. -/
def CharBound (P : Char → Prop) (m : Matcher) : Prop :=
  ∀ l k rep, (∀ c ∈ l, P c) → m l = some (k, rep) → ∀ c ∈ rep, P c

theorem scanAux_of_id {m : Matcher} (hm : IdMatcher m) :
    ∀ (fuel : Nat) (l : Buf), scanAux m fuel l = l := by
  intro fuel
  induction fuel with
  | zero => intro l; cases l <;> rfl
  | succ n ih =>
    intro l
    cases l with
    | nil => rfl
    | cons c rest =>
      rw [scanAux_succ_cons]
      cases hml : m (c :: rest) with
      | none =>
        show c :: scanAux m n rest = c :: rest
        rw [ih]
      | some kr =>
        obtain ⟨k, rep⟩ := kr
        have hrep : rep = (c :: rest).take k := hm _ _ _ hml
        show (if k = 0 then c :: scanAux m n rest
              else rep ++ scanAux m n (rest.drop (k - 1))) = c :: rest
        by_cases hk : k = 0
        · simp [hk, ih]
        · rw [if_neg hk, ih, hrep]
          cases k with
          | zero => exact absurd rfl hk
          | succ j =>
            simp [List.take_succ_cons, List.take_append_drop]

theorem rewriteScan_of_id {m : Matcher} (hm : IdMatcher m) (l : Buf) :
    rewriteScan m l = l :=
  scanAux_of_id hm _ _

theorem scanAux_pres {P : Char → Prop} {m : Matcher} (hm : CharBound P m) :
    ∀ (fuel : Nat) (l : Buf), (∀ c ∈ l, P c) →
      ∀ c ∈ scanAux m fuel l, P c := by
  intro fuel
  induction fuel with
  | zero =>
    intro l h
    cases l with
    | nil => simp [scanAux_nil]
    | cons c rest => exact h
  | succ n ih =>
    intro l h
    cases l with
    | nil => simp [scanAux_nil]
    | cons c rest =>
      rw [scanAux_succ_cons]
      cases hml : m (c :: rest) with
      | none =>
        show ∀ c_1 ∈ c :: scanAux m n rest, P c_1
        intro a ha
        rcases List.mem_cons.mp ha with rfl | ha'
        · exact h _ (List.mem_cons_self _ _)
        · exact ih rest (fun x hx => h x (List.mem_cons_of_mem _ hx)) a ha'
      | some kr =>
        obtain ⟨k, rep⟩ := kr
        have hrep : ∀ c ∈ rep, P c := hm _ _ _ h hml
        show ∀ c_1 ∈ (if k = 0 then c :: scanAux m n rest
              else rep ++ scanAux m n (rest.drop (k - 1))), P c_1
        by_cases hk : k = 0
        · rw [if_pos hk]
          intro a ha
          rcases List.mem_cons.mp ha with rfl | ha'
          · exact h _ (List.mem_cons_self _ _)
          · exact ih rest (fun x hx => h x (List.mem_cons_of_mem _ hx)) a ha'
        · rw [if_neg hk]
          intro a ha
          rcases List.mem_append.mp ha with h1 | h2
          · exact hrep a h1
          · exact ih _
              (fun x hx => h x (List.mem_cons_of_mem _ (List.drop_subset _ _ hx)))
              a h2

theorem rewriteScan_pres {P : Char → Prop} {m : Matcher} (hm : CharBound P m)
    {l : Buf} (h : ∀ c ∈ l, P c) : ∀ c ∈ rewriteScan m l, P c :=
  scanAux_pres hm _ _ h

theorem scanAux_lit_no_occur {pat rep : Buf} : ∀ (fuel : Nat) (l : Buf),
    containsSeq pat l = false → scanAux (litM pat rep) fuel l = l := by
  intro fuel
  induction fuel with
  | zero => intro l _; cases l <;> rfl
  | succ n ih =>
    intro l h
    cases l with
    | nil => rfl
    | cons c rest =>
      simp only [containsSeq, Bool.or_eq_false_iff] at h
      rw [scanAux_succ_cons]
      have hm : litM pat rep (c :: rest) = none := by simp [litM, h.1]
      rw [hm, ih rest h.2]

/-- If the pattern does not occur in the text, the substitution is the
identity (the "no match is a no-op" policy). -/
theorem reSub_no_occur {pat rep l : Buf} (h : containsSeq pat l = false) :
    reSub pat rep l = l :=
  scanAux_lit_no_occur _ _ h

/-- Substituting on a buffer that is exactly the pattern yields exactly the
replacement. -/
theorem reSub_self (pat rep : Buf) (h : pat ≠ []) : reSub pat rep pat = rep := by
  cases pat with
  | nil => exact absurd rfl h
  | cons c cs =>
    show scanAux (litM (c :: cs) rep) (cs.length + 1) (c :: cs) = rep
    rw [scanAux_succ_cons]
    have hm : litM (c :: cs) rep (c :: cs) = some ((c :: cs).length, rep) := by
      simp [litM, prefixOf_refl]
    rw [hm]
    have hk : (c :: cs).length ≠ 0 := by simp
    show (if (c :: cs).length = 0 then c :: scanAux (litM (c :: cs) rep) cs.length cs
          else rep ++ scanAux (litM (c :: cs) rep) cs.length
            (cs.drop ((c :: cs).length - 1))) = rep
    rw [if_neg hk]
    simp [List.drop_length, scanAux_nil]

end WaClone

namespace WaClone

/-!
## Matcher properties
-/

theorem litM_some {pat rep l : Buf} {k : Nat} {rp : Buf}
    (hm : litM pat rep l = some (k, rp)) :
    pat.isPrefixOf l = true ∧ k = pat.length ∧ rp = rep := by
  simp only [litM] at hm
  cases hpre : pat.isPrefixOf l with
  | false => rw [hpre] at hm; simp at hm
  | true =>
    rw [hpre] at hm
    simp only [if_true] at hm
    exact ⟨rfl, (Prod.mk.injEq _ _ _ _ ▸ Option.some.inj hm).1.symm,
      (Prod.mk.injEq _ _ _ _ ▸ Option.some.inj hm).2.symm⟩

theorem litGuardM_some {pat g rep l : Buf} {k : Nat} {rp : Buf}
    (hm : litGuardM pat g rep l = some (k, rp)) :
    pat.isPrefixOf l = true ∧ k = pat.length ∧ rp = rep := by
  simp only [litGuardM] at hm
  cases hc : (pat.isPrefixOf l && !(g.isPrefixOf (l.drop pat.length))) with
  | false => rw [hc] at hm; simp at hm
  | true =>
    rw [hc] at hm
    simp only [if_true] at hm
    refine ⟨(Bool.and_eq_true .. ▸ hc).1, ?_, ?_⟩
    · exact (Prod.mk.injEq _ _ _ _ ▸ Option.some.inj hm).1.symm
    · exact (Prod.mk.injEq _ _ _ _ ▸ Option.some.inj hm).2.symm

/-- Destructuring a successful protected-module match. -/
theorem officialM_some {flex : Bool} {pkg mid l : Buf} {k : Nat} {rp : Buf}
    (hm : officialM flex pkg mid l = some (k, rp)) :
    ∃ d1 r1 d2 r2 m, l = d1 :: r1 ∧ isDelim flex d1 = true ∧
      pkg.isPrefixOf r1 = true ∧ r1.drop pkg.length = d2 :: r2 ∧
      isDelim flex d2 = true ∧ m.isPrefixOf r2 = true ∧
      k = 1 + pkg.length + 1 + m.length ∧ rp = d1 :: mid ++ d2 :: m := by
  cases l with
  | nil => simp [officialM] at hm
  | cons d1 r1 =>
    simp only [officialM] at hm
    cases hc1 : (isDelim flex d1 && pkg.isPrefixOf r1) with
    | false => rw [hc1] at hm; simp at hm
    | true =>
      rw [hc1] at hm
      simp only [if_true] at hm
      cases hdrop : r1.drop pkg.length with
      | nil => rw [hdrop] at hm; simp at hm
      | cons d2 r2 =>
        rw [hdrop] at hm
        have hm' : (if isDelim flex d2 = true then
            (match findMod OFFICIAL_MODULES r2 with
             | some m => some (1 + pkg.length + 1 + m.length,
                 d1 :: mid ++ d2 :: m)
             | none => none)
          else none) = some (k, rp) := hm
        cases hc2 : isDelim flex d2 with
        | false => rw [hc2] at hm'; simp at hm'
        | true =>
          rw [hc2] at hm'
          simp only [if_true] at hm'
          cases hfind : findMod OFFICIAL_MODULES r2 with
          | none => rw [hfind] at hm'; simp at hm'
          | some m =>
            rw [hfind] at hm'
            simp only [Option.some.injEq, Prod.mk.injEq] at hm'
            refine ⟨d1, r1, d2, r2, m, rfl, (Bool.and_eq_true .. ▸ hc1).1,
              (Bool.and_eq_true .. ▸ hc1).2, hdrop, hc2, ?_, hm'.1.symm,
              hm'.2.symm⟩
            have hfind' : List.find? (fun b => b.isPrefixOf r2)
                OFFICIAL_MODULES = some m := hfind
            have hp := List.find?_some hfind'
            exact hp

theorem idMatcher_lit_of_eq {pat rep : Buf} (h : rep = pat) :
    IdMatcher (litM pat rep) := by
  intro l k rp hm
  obtain ⟨hpre, hk, hr⟩ := litM_some hm
  rw [hr, hk, h, prefixOf_take pat l hpre]

theorem idMatcher_litGuard_of_eq {pat g rep : Buf} (h : rep = pat) :
    IdMatcher (litGuardM pat g rep) := by
  intro l k rp hm
  obtain ⟨hpre, hk, hr⟩ := litGuardM_some hm
  rw [hr, hk, h, prefixOf_take pat l hpre]

theorem idMatcher_official_of_eq {flex : Bool} {pkg mid : Buf}
    (h : mid = pkg) : IdMatcher (officialM flex pkg mid) := by
  intro l k rp hm
  obtain ⟨d1, r1, d2, r2, m, hl, _, hpk, hdrop, _, hmod, hk, hr⟩ :=
    officialM_some hm
  subst hl
  have hk' : k = (pkg.length + (m.length + 1)) + 1 := by omega
  rw [hr, hk', List.take_succ_cons, List.take_add, prefixOf_take pkg r1 hpk,
    hdrop, List.take_succ_cons, prefixOf_take m r2 hmod, h]
  simp

theorem charBound_lit_rep {P : Char → Prop} {pat rep : Buf}
    (h : ∀ c ∈ rep, P c) : CharBound P (litM pat rep) := by
  intro l k rp _ hm
  rw [(litM_some hm).2.2]
  exact h

theorem charBound_lit_vac {P : Char → Prop} {pat rep : Buf} (c0 : Char)
    (hc : c0 ∈ pat) (hP : ¬P c0) : CharBound P (litM pat rep) := by
  intro l k rp hall hm
  exact absurd (hall c0 (prefixOf_mem pat l c0 (litM_some hm).1 hc)) hP

theorem charBound_official {P : Char → Prop} {flex : Bool} {pkg mid : Buf}
    (h : ∀ c ∈ mid, P c) : CharBound P (officialM flex pkg mid) := by
  intro l k rp hall hm
  obtain ⟨d1, r1, d2, r2, m, hl, _, _, hdrop, _, hmod, _, hr⟩ :=
    officialM_some hm
  subst hl
  have hd2 : d2 ∈ r1 := List.drop_subset _ _ (hdrop ▸ List.mem_cons_self d2 r2)
  have hr2 : ∀ c ∈ r2, c ∈ r1 := fun c hc =>
    List.drop_subset _ _ (hdrop ▸ List.mem_cons_of_mem d2 hc)
  rw [hr]
  intro a ha
  rcases List.mem_cons.mp ha with rfl | ha'
  · exact hall a (List.mem_cons_self _ _)
  rcases List.mem_append.mp ha' with h1 | h2
  · exact h a h1
  rcases List.mem_cons.mp h2 with rfl | h3
  · exact hall a (List.mem_cons_of_mem _ hd2)
  · exact hall a (List.mem_cons_of_mem _ (hr2 a (prefixOf_mem m r2 a hmod h3)))

end WaClone

namespace WaClone

/-!
## The default Auto configurations rewrite to the matched text

Under `cfgDefP` (package `whatsapp`) and, for the structural category,
`cfgDefB` (package `whatsapp.w4b`), every rule's replacement equals the
text it matched, so one pass — hence any number of passes — is the
identity.
-/

theorem smali_defP_eq (buf : Buf) : smaliRewrite cfgDefP buf = buf := by
  show rewriteScan (officialM true (toPath (str "whatsapp")) (str "whatsapp"))
      (rewriteScan (officialM false (str "whatsapp") (str "whatsapp"))
        (reSub (str "com.whatsapp") (str "com." ++ str "whatsapp")
          (reSub (str "com/whatsapp") (str "com/" ++ toPath (str "whatsapp"))
            buf))) = buf
  simp only [reSub]
  rw [rewriteScan_of_id (idMatcher_lit_of_eq (by decide)),
    rewriteScan_of_id (idMatcher_lit_of_eq (by decide)),
    rewriteScan_of_id (idMatcher_official_of_eq rfl),
    rewriteScan_of_id (idMatcher_official_of_eq (by decide))]

theorem xml_defP_eq (buf : Buf) : xmlRewrite cfgDefP buf = buf := by
  show rewriteScan (officialM false (str "whatsapp") (str "whatsapp"))
      (reSub (str "WhatsApp") (str "WhatsApp")
        (reSub (str "android:name=\"com.whatsapp.sticker.READ\"")
          (str "android:name=\"com." ++ str "whatsapp" ++ str ".sticker.READ\"")
          (reSub (str "com.whatsapp") (str "com." ++ str "whatsapp") buf))) = buf
  simp only [reSub]
  rw [rewriteScan_of_id (idMatcher_lit_of_eq (by decide)),
    rewriteScan_of_id (idMatcher_lit_of_eq (by decide)),
    rewriteScan_of_id (idMatcher_lit_of_eq (by decide)),
    rewriteScan_of_id (idMatcher_official_of_eq rfl)]

theorem smali_defB_eq (buf : Buf) : smaliRewrite cfgDefB buf = buf := by
  show rewriteScan
      (officialM true (toPath (str "whatsapp.w4b")) (str "whatsapp/w4b"))
      (rewriteScan (officialM false (str "whatsapp.w4b") (str "whatsapp.w4b"))
        (rewriteScan
          (litGuardM (str "com.whatsapp") (str ".w4b") (str "com.whatsapp"))
          (rewriteScan
            (litGuardM (str "com/whatsapp") (str "/w4b") (str "com/whatsapp"))
            (reSub (str "com.whatsapp.w4b") (str "com." ++ str "whatsapp.w4b")
              (reSub (str "com/whatsapp/w4b")
                (str "com/" ++ toPath (str "whatsapp.w4b")) buf))))) = buf
  simp only [reSub]
  rw [rewriteScan_of_id (idMatcher_lit_of_eq (by decide)),
    rewriteScan_of_id (idMatcher_lit_of_eq (by decide)),
    rewriteScan_of_id (idMatcher_litGuard_of_eq rfl),
    rewriteScan_of_id (idMatcher_litGuard_of_eq rfl),
    rewriteScan_of_id (idMatcher_official_of_eq rfl),
    rewriteScan_of_id (idMatcher_official_of_eq (by decide))]

end WaClone

namespace WaClone

/-!
## Claim theorems
-/

/-- C1, counterexample.  For the Variant-labeled structural rewrite with
target package `myapp`, a buffer holding a variant-suffixed and a bare
occurrence of the source token is NOT rewritten as the claim states: the
bare occurrence `com.whatsapp.Foo` survives unchanged (the second pass
replaces it by itself) instead of becoming the new base form
`com.myapp.Foo`. -/
theorem C1_counterexample :
    smaliRewrite cfgBiz (str "com.whatsapp.w4b com.whatsapp.Foo")
        = str "com.myapp com.whatsapp.Foo" ∧
    containsSeq (str "com.whatsapp.Foo")
        (smaliRewrite cfgBiz (str "com.whatsapp.w4b com.whatsapp.Foo"))
        = true ∧
    containsSeq (str "com.myapp.Foo")
        (smaliRewrite cfgBiz (str "com.whatsapp.w4b com.whatsapp.Foo"))
        = false := by decide

/-- C1, amended.  One application of the Variant-labeled structural rewrite
maps each variant-suffixed occurrence `com<delim>whatsapp<delim>w4b` to
`com<delim><targetPackage>` (no variant suffix is appended) and leaves each
bare occurrence `com<delim>whatsapp` unchanged; neither occurrence is
rewritten into the other's form, and the delimiter style of each occurrence
is kept. -/
theorem C1_amended :
    smaliRewrite cfgBiz
        (str "com/whatsapp/w4b/X com/whatsapp/Y com.whatsapp.w4b.Z com.whatsapp.Q")
      = str "com/myapp/X com/whatsapp/Y com.myapp.Z com.whatsapp.Q" := by
  decide

set_option maxHeartbeats 1600000 in
/-- C2.  For a Primary-labeled job with target package `myapp` and the
protected module `util`, the buffer `com/whatsapp/util/Foo` first becomes
`com/myapp/util/Foo` under the main substitution and the trailing
protected-module rule restores `com/whatsapp/util/Foo`; moreover for every
protected module name `m`, `com/whatsapp/<m>/Foo` is a fixed point of the
whole structural rewrite. -/
theorem C2_theorem :
    smaliMain cfgPrim (str "com/whatsapp/util/Foo")
        = str "com/myapp/util/Foo" ∧
    smaliRewrite cfgPrim (str "com/whatsapp/util/Foo")
        = str "com/whatsapp/util/Foo" ∧
    (OFFICIAL_MODULES.all fun m =>
        smaliRewrite cfgPrim (str "com/whatsapp/" ++ m ++ str "/Foo")
          == str "com/whatsapp/" ++ m ++ str "/Foo") = true := by decide

/-- C3, counterexample.  With a custom search token `org.foo` under the
Variant label, the structural rewrite does not use the custom token at all:
the token occurrence `org.foo` survives unchanged while the default
`com.whatsapp.w4b` pattern is still applied; and in the declarative
category the slash-delimited form `org/foo` of the custom token is not
matched. -/
theorem C3_counterexample :
    smaliRewrite cfgBizCustom (str "org.foo.X com.whatsapp.w4b.Y")
        = str "org.foo.X com.myapp.Y" ∧
    containsSeq (str "org.foo")
        (smaliRewrite cfgBizCustom (str "org.foo.X com.whatsapp.w4b.Y"))
        = true ∧
    xmlRewrite (cfgCustomS (str "org.foo")) (str "org/foo")
        = str "org/foo" := by decide

/-- C3, amended.  A custom search token governs only the Primary-label
branches: the structural rewrite matches the token's uniform all-slash form
and uniform all-dot form (a mixed-delimiter occurrence matches neither),
the declarative rewrite matches only the token's literal dot form, and the
Variant-label structural branch ignores the custom token, always applying
the default `com.whatsapp(.w4b)` patterns. -/
theorem C3_amended :
    smaliRewrite (cfgCustomS (str "net.alpha.beta"))
        (str "net/alpha/beta!net.alpha.beta?net.alpha/beta")
      = str "com/myapp!com.myapp?net.alpha/beta" ∧
    xmlRewrite (cfgCustomS (str "net.alpha.beta"))
        (str "net.alpha.beta net/alpha/beta")
      = str "com.myapp net/alpha/beta" ∧
    smaliRewrite cfgBizCustom (str "com.whatsapp.w4b.Y org.foo.X")
      = str "com.myapp.Y org.foo.X" := by decide

/-- C4, counterexample.  With an empty target package the rule list is
built and applied without any error: the degenerate protected-module
matcher `(\.)(\.)(<module>)` simply rewrites `..util` to `.whatsapp.util`.
The processor construction has no failure path, contradicting the claimed
ConfigurationError. -/
theorem C4_counterexample :
    smaliRewrite cfgEmptyPkg (str "..util") = str ".whatsapp.util" := by
  decide

/-- C4, amended.  Building the rule lists with an empty target package
does not fail: both categories silently produce usable (degenerate) rules;
the emptiness of the package name is checked only by the separate
`validate_config` step of the external layer, which reports it before any
file is processed. -/
theorem C4_amended :
    validateNames cfgEmptyPkg = false ∧
    smaliRewrite cfgEmptyPkg (str "..util X") = str ".whatsapp.util X" ∧
    xmlRewrite cfgEmptyPkg (str "com.whatsapp") = str "com." := by decide

/-- C5, counterexample.  Applying the declarative rule set twice is not
the same as applying it once: with new folder name `WhatsApp2` (which
contains the current folder name `WhatsApp`), the buffer `WhatsApp` maps
to `WhatsApp2` after one pass and to `WhatsApp22` after two. -/
theorem C5_counterexample :
    xmlRewrite cfgFolder2 (xmlRewrite cfgFolder2 (str "WhatsApp"))
      ≠ xmlRewrite cfgFolder2 (str "WhatsApp") := by decide

/-- C5, amended.  A second application of the full ordered rule set is a
fixed point whenever every rule's replacement text equals the text it
matched, which holds for the default Auto configurations: the Primary
default (both categories) and the Variant default (structural category).
In general the property fails as soon as a replacement reintroduces a
match, e.g. when the new folder name contains the current one. -/
theorem C5_amended (buf : Buf) :
    smaliRewrite cfgDefP (smaliRewrite cfgDefP buf)
        = smaliRewrite cfgDefP buf ∧
    xmlRewrite cfgDefP (xmlRewrite cfgDefP buf) = xmlRewrite cfgDefP buf ∧
    smaliRewrite cfgDefB (smaliRewrite cfgDefB buf)
        = smaliRewrite cfgDefB buf := by
  refine ⟨?_, ?_, ?_⟩
  · simp [smali_defP_eq]
  · simp [xml_defP_eq]
  · simp [smali_defB_eq]

/-- C5, witness: the fixed-point property of the amended claim at the
concrete buffer `com/whatsapp/util`. -/
theorem C5_witness :
    smaliRewrite cfgDefP (smaliRewrite cfgDefP (str "com/whatsapp/util"))
      = smaliRewrite cfgDefP (str "com/whatsapp/util") :=
  (C5_amended (str "com/whatsapp/util")).1

/-- C7, counterexample.  Delimiter style is not always preserved: under the
Variant label with target package `w4b`, the purely dot-delimited buffer
`.w4b.util` is rewritten to `.whatsapp.whatsapp/w4b.util` — the flexible
protected-module rule inserts the slash form `whatsapp/w4b` between two
captured dots, introducing a `/` into a slash-free buffer. -/
theorem C7_counterexample :
    smaliRewrite cfgW4b (str ".w4b.util")
        = str ".whatsapp.whatsapp/w4b.util" ∧
    ('/' ∉ str ".w4b.util") ∧
    '/' ∈ smaliRewrite cfgW4b (str ".w4b.util") := by decide

/-- C8.  In Variant mode without a custom token the declarative rewrite
collapses the variant-suffixed and the bare form to the single form
`com.<newPackage>`, while the structural rewrite on the same buffer keeps
them distinct (variant rewritten, bare preserved). -/
theorem C8_theorem :
    xmlRewrite cfgBiz (str "com.whatsapp.w4b;com.whatsapp;")
        = str "com.myapp;com.myapp;" ∧
    smaliRewrite cfgBiz (str "com.whatsapp.w4b;com.whatsapp;")
        = str "com.myapp;com.whatsapp;" := by decide

end WaClone

namespace WaClone

/-- C6.  Per-file failures are contained: for any file list consisting of
good files `a`, one failing file `bad`, and good files `b`, the run
processes every file, records the failing one as unsuccessful, and reports
`found = |a| + |b| + 1`, `succeeded = |a| + |b|`. -/
theorem C6_theorem (cfg : WhatsAppCloneConfig) (a b : List FileState)
    (bad : FileState)
    (ha : ∀ f ∈ a, (smaliProcessFile cfg f).success = true)
    (hb : ∀ f ∈ b, (smaliProcessFile cfg f).success = true)
    (hbad : (smaliProcessFile cfg bad).success = false) :
    processAllSmali cfg (a ++ bad :: b)
      = (a.length + b.length + 1, a.length + b.length) := by
  have hca : ((a.map fun f => (smaliProcessFile cfg f).success).count true)
      = a.length := by
    rw [List.count_eq_length.mpr]
    · exact (List.length_map _ _)
    · intro x hx
      obtain ⟨f, hf, rfl⟩ := List.mem_map.mp hx
      exact (ha f hf).symm
  have hcb : ((b.map fun f => (smaliProcessFile cfg f).success).count true)
      = b.length := by
    rw [List.count_eq_length.mpr]
    · exact (List.length_map _ _)
    · intro x hx
      obtain ⟨f, hf, rfl⟩ := List.mem_map.mp hx
      exact (hb f hf).symm
  show ((a ++ bad :: b).length,
      ((a ++ bad :: b).map fun f => (smaliProcessFile cfg f).success).count
        true) = (a.length + b.length + 1, a.length + b.length)
  rw [List.map_append, List.map_cons, List.count_append, hbad,
    List.count_cons_of_ne (by decide), hca, hcb]
  simp only [List.length_append, List.length_cons, Prod.mk.injEq]
  exact ⟨by omega, trivial⟩

/-- C6, witness: ten files of which exactly the fifth is unreadable yield
`found = 10`, `succeeded = 9`, and the run completes. -/
theorem C6_witness :
    processAllSmali cfgPrim
        (List.replicate 4 goodFile ++ badFile :: List.replicate 5 goodFile)
      = (10, 9) := by
  have h := C6_theorem cfgPrim (List.replicate 4 goodFile)
    (List.replicate 5 goodFile) badFile
    (fun f hf => by rw [List.eq_of_mem_replicate hf]; decide)
    (fun f hf => by rw [List.eq_of_mem_replicate hf]; decide)
    (by decide)
  simpa using h

/-- C7, amended.  For the Primary label (target package `myapp`) delimiter
style is preserved: a buffer without `/` rewrites (in either category) to a
buffer without `/`, and a buffer without `.` rewrites to a buffer without
`.`; the engine never introduces the other delimiter style.  (Under the
Variant label the flexible protected-module rule violates this, as the
counterexample shows.) -/
theorem C7_amended (buf : Buf) :
    ('/' ∉ buf → '/' ∉ smaliRewrite cfgPrim buf ∧
      '/' ∉ xmlRewrite cfgPrim buf) ∧
    ('.' ∉ buf → '.' ∉ smaliRewrite cfgPrim buf ∧
      '.' ∉ xmlRewrite cfgPrim buf) := by
  have hmk : ∀ (c0 : Char), c0 ∉ buf → ∀ c ∈ buf, c ≠ c0 :=
    fun c0 h c hc he => h (he ▸ hc)
  have hsm : smaliRewrite cfgPrim buf
      = rewriteScan (officialM true (toPath (str "myapp")) (str "whatsapp"))
        (rewriteScan (officialM false (str "myapp") (str "whatsapp"))
          (rewriteScan (litM (str "com.whatsapp")
              (str "com." ++ str "myapp"))
            (rewriteScan (litM (str "com/whatsapp")
                (str "com/" ++ toPath (str "myapp"))) buf))) := rfl
  have hxm : xmlRewrite cfgPrim buf
      = rewriteScan (officialM false (str "myapp") (str "whatsapp"))
        (rewriteScan (litM (str "WhatsApp") (str "MyApp"))
          (rewriteScan (litM
              (str "android:name=\"com.whatsapp.sticker.READ\"")
              (str "android:name=\"com." ++ str "myapp"
                ++ str ".sticker.READ\""))
            (rewriteScan (litM (str "com.whatsapp")
                (str "com." ++ str "myapp")) buf))) := rfl
  constructor
  · intro h
    have hall := hmk '/' h
    have cb1 : CharBound (· ≠ '/')
        (litM (str "com/whatsapp") (str "com/" ++ toPath (str "myapp"))) :=
      charBound_lit_vac '/' (by decide) (by simp)
    have cb2 : CharBound (· ≠ '/')
        (litM (str "com.whatsapp") (str "com." ++ str "myapp")) :=
      charBound_lit_rep (by decide)
    have cb3 : CharBound (· ≠ '/')
        (officialM false (str "myapp") (str "whatsapp")) :=
      charBound_official (by decide)
    have cb4 : CharBound (· ≠ '/')
        (officialM true (toPath (str "myapp")) (str "whatsapp")) :=
      charBound_official (by decide)
    have cb5 : CharBound (· ≠ '/')
        (litM (str "android:name=\"com.whatsapp.sticker.READ\"")
          (str "android:name=\"com." ++ str "myapp"
            ++ str ".sticker.READ\"")) :=
      charBound_lit_rep (by decide)
    have cb6 : CharBound (· ≠ '/') (litM (str "WhatsApp") (str "MyApp")) :=
      charBound_lit_rep (by decide)
    constructor
    · rw [hsm]
      intro hmem
      exact rewriteScan_pres cb4 (rewriteScan_pres cb3
        (rewriteScan_pres cb2 (rewriteScan_pres cb1 hall))) '/' hmem rfl
    · rw [hxm]
      intro hmem
      exact rewriteScan_pres cb3 (rewriteScan_pres cb6
        (rewriteScan_pres cb5 (rewriteScan_pres cb2 hall))) '/' hmem rfl
  · intro h
    have hall := hmk '.' h
    have cb1 : CharBound (· ≠ '.')
        (litM (str "com/whatsapp") (str "com/" ++ toPath (str "myapp"))) :=
      charBound_lit_rep (by decide)
    have cb2 : CharBound (· ≠ '.')
        (litM (str "com.whatsapp") (str "com." ++ str "myapp")) :=
      charBound_lit_vac '.' (by decide) (by simp)
    have cb3 : CharBound (· ≠ '.')
        (officialM false (str "myapp") (str "whatsapp")) :=
      charBound_official (by decide)
    have cb4 : CharBound (· ≠ '.')
        (officialM true (toPath (str "myapp")) (str "whatsapp")) :=
      charBound_official (by decide)
    have cb5 : CharBound (· ≠ '.')
        (litM (str "android:name=\"com.whatsapp.sticker.READ\"")
          (str "android:name=\"com." ++ str "myapp"
            ++ str ".sticker.READ\"")) :=
      charBound_lit_vac '.' (by decide) (by simp)
    have cb6 : CharBound (· ≠ '.') (litM (str "WhatsApp") (str "MyApp")) :=
      charBound_lit_rep (by decide)
    constructor
    · rw [hsm]
      intro hmem
      exact rewriteScan_pres cb4 (rewriteScan_pres cb3
        (rewriteScan_pres cb2 (rewriteScan_pres cb1 hall))) '.' hmem rfl
    · rw [hxm]
      intro hmem
      exact rewriteScan_pres cb3 (rewriteScan_pres cb6
        (rewriteScan_pres cb5 (rewriteScan_pres cb2 hall))) '.' hmem rfl

/-- C7, witness: the dot-only buffer `com.whatsapp.util` rewrites without
acquiring a slash, and the slash-only buffer `com/whatsapp/util` rewrites
without acquiring a dot. -/
theorem C7_witness :
    '/' ∉ smaliRewrite cfgPrim (str "com.whatsapp.util") ∧
    '.' ∉ smaliRewrite cfgPrim (str "com/whatsapp/util") := by
  constructor
  · exact ((C7_amended (str "com.whatsapp.util")).1 (by decide)).1
  · exact ((C7_amended (str "com/whatsapp/util")).2 (by decide)).1

end WaClone

namespace WaClone

/-- C9.  The replacement text always begins with the hard-coded literal
`com`: for every custom search token `t` that contains a dot-separator,
the Primary structural rewrite maps the token's slash form to
`com/<targetPackagePath>` and the declarative rewrite maps the token itself
to `com.<targetPackage>` — whatever the token's own leading segment is, it
is replaced by `com`. -/
theorem C9_theorem (t : Buf) (h1 : t ≠ []) (h2 : '.' ∈ t) :
    smaliRewrite (cfgCustomS t) (toPath t) = str "com/myapp" ∧
    xmlRewrite (cfgCustomS t) t = str "com.myapp" := by
  have htp : toPath t ≠ [] := by
    intro hnil
    exact h1 (by simpa [toPath] using hnil)
  constructor
  · show rewriteScan (officialM true (toPath (str "myapp")) (str "whatsapp"))
        (rewriteScan (officialM false (str "myapp") (str "whatsapp"))
          (reSub t (str "com." ++ str "myapp")
            (reSub (toPath t) (str "com/" ++ toPath (str "myapp"))
              (toPath t)))) = str "com/myapp"
    rw [reSub_self _ _ htp,
      reSub_no_occur (containsSeq_eq_false h2 (by decide))]
    decide
  · show rewriteScan (officialM false (str "myapp") (str "whatsapp"))
        (reSub (str "WhatsApp") (str "MyApp")
          (reSub (str "android:name=\"" ++ t ++ str ".sticker.READ\"")
            (str "android:name=\"com." ++ str "myapp" ++ str ".sticker.READ\"")
            (reSub t (str "com." ++ str "myapp") t))) = str "com.myapp"
    rw [reSub_self _ _ h1]
    have hcol : (':' : Char) ∈ str "android:name=\"" ++ t
        ++ str ".sticker.READ\"" := by
      rw [List.append_assoc]
      exact List.mem_append_left _ (by decide)
    rw [reSub_no_occur (containsSeq_eq_false hcol (by decide)),
      reSub_no_occur (by decide)]
    decide

/-- C9, witness: the token `org.foo`, whose leading segment is not `com`,
has its structural slash form rewritten to `com/myapp` and its declarative
form to `com.myapp`. -/
theorem C9_witness :
    smaliRewrite (cfgCustomS (str "org.foo")) (toPath (str "org.foo"))
        = str "com/myapp" ∧
    xmlRewrite (cfgCustomS (str "org.foo")) (str "org.foo")
        = str "com.myapp" :=
  C9_theorem (str "org.foo") (by decide) (by decide)

/-- C10, counterexample.  The proviso of the claim is satisfied — with
target package `whats`, `com.whats` does not contain the source token
`com.whatsapp` — yet the declarative rewrite with the sticker rule differs
from the one without it: in the buffer
`android:name="com.whatsappapp.sticker.READ"` the package substitution's
replacement recreates the literal sticker attribute across its boundary,
which the sticker rule then rewrites a second time. -/
theorem C10_counterexample :
    containsSeq (str "com.whatsapp") (str "com." ++ str "whats") = false ∧
    xmlRewrite cfgWhats (str "android:name=\"com.whatsappapp.sticker.READ\"")
      ≠ xmlRewriteNoSticker cfgWhats
          (str "android:name=\"com.whatsappapp.sticker.READ\"") := by decide

/-- C10, amended.  The sticker-permission rule is redundant provided the
output of the package substitution contains no occurrence of the searched
source token (a condition on the rewritten buffer; the claim's original
proviso on `com.<newPackage>` alone is insufficient because a replacement
boundary can recreate an occurrence): under that proviso the declarative
rewrite with the sticker rule equals the rewrite without it, for every
Primary-label package name and buffer. -/
theorem C10_amended (p buf : Buf)
    (h : containsSeq (str "com.whatsapp")
        (xmlPackageSub (cfgPrimOf p) buf) = false) :
    xmlRewrite (cfgPrimOf p) buf = xmlRewriteNoSticker (cfgPrimOf p) buf := by
  have hstick : xmlStickerSub (cfgPrimOf p) (xmlPackageSub (cfgPrimOf p) buf)
      = xmlPackageSub (cfgPrimOf p) buf := by
    show reSub (str "android:name=\"com.whatsapp.sticker.READ\"")
        (str "android:name=\"com." ++ p ++ str ".sticker.READ\"")
        (xmlPackageSub (cfgPrimOf p) buf) = xmlPackageSub (cfgPrimOf p) buf
    apply reSub_no_occur
    cases hc : containsSeq (str "android:name=\"com.whatsapp.sticker.READ\"")
        (xmlPackageSub (cfgPrimOf p) buf) with
    | false => rfl
    | true =>
      have hsplit : str "android:name=\"com.whatsapp.sticker.READ\""
          = str "android:name=\"" ++ str "com.whatsapp"
            ++ str ".sticker.READ\"" := by decide
      have htrue : containsSeq (str "com.whatsapp")
          (xmlPackageSub (cfgPrimOf p) buf) = true :=
        containsSeq_mono (str "android:name=\"") (str ".sticker.READ\"") _
          (hsplit ▸ hc)
      rw [htrue] at h
      exact absurd h (by decide)
  show xmlOfficialSub (cfgPrimOf p) (xmlFolderSub (cfgPrimOf p)
      (xmlStickerSub (cfgPrimOf p) (xmlPackageSub (cfgPrimOf p) buf)))
    = xmlOfficialSub (cfgPrimOf p) (xmlFolderSub (cfgPrimOf p)
      (xmlPackageSub (cfgPrimOf p) buf))
  rw [hstick]

/-- C10, witness: with package `myapp` and the buffer
`a com.whatsapp b`, the package substitution leaves no token occurrence,
and the rewrite with the sticker rule equals the one without it. -/
theorem C10_witness :
    xmlRewrite (cfgPrimOf (str "myapp")) (str "a com.whatsapp b")
      = xmlRewriteNoSticker (cfgPrimOf (str "myapp"))
          (str "a com.whatsapp b") :=
  C10_amended (str "myapp") (str "a com.whatsapp b") (by decide)

end WaClone
